import Mathlib

/-!
Verification of the Kafka frontier backend
(`crawlfrontier/contrib/backends/remote.py`).

The backend is shallowly embedded: the mutable `KafkaBackend` object becomes
an explicit state record, every method becomes a state-passing function, and
the external world (broker connection outcomes, `send_messages` outcomes,
`get_messages` poll results) is supplied through explicit oracle arguments.
Broker calls and log lines are recorded in an event trace so that frame
conditions ("does not touch the broker") and retry counts are provable.

The wire codec in the source delegates to `ScrapyJSONEncoder` /
`ScrapyJSONDecoder` (the Python `json` module), whose code is outside this
repository; it is modelled from the spec (section 4.3): a deterministic JSON
serialization of `\x7burl, links\x7d` with string escaping, and a JSON parser
restricted to integer numerals (fractions and exponents are not needed by any
claim).
-/

/-- JSON values as produced by the decoder (Python `json.loads`). Numbers are
restricted to integers, which is all the claims exercise. -/
inductive JVal where
  | null
  | bool (b : Bool)
  | num (n : Int)
  | str (s : String)
  | arr (elems : List JVal)
  | obj (fields : List (String × JVal))
deriving Repr

/-! ### JSON text: characters, escaping, parsing -/

/-- JSON whitespace characters. -/
def isWsChar (c : Char) : Bool :=
  c = ' ' || c = '\t' || c = '\n' || c = '\r'

/-- Drop leading JSON whitespace. -/
def skipWs : List Char → List Char
  | [] => []
  | c :: rest => if isWsChar c then skipWs rest else c :: rest

/-- Lower-case hex digit for a value below 16. -/
def hexDigit (n : Nat) : Char :=
  if n < 10 then Char.ofNat (48 + n) else Char.ofNat (87 + n)

/-- Value of a hex digit character, if it is one. -/
def unhexDigit (c : Char) : Option Nat :=
  if 48 ≤ c.toNat ∧ c.toNat ≤ 57 then some (c.toNat - 48)
  else if 97 ≤ c.toNat ∧ c.toNat ≤ 102 then some (c.toNat - 87)
  else if 65 ≤ c.toNat ∧ c.toNat ≤ 70 then some (c.toNat - 55)
  else none

/-- JSON escape of one character, as the encoder emits it: the two-character
escapes for quote, backslash and common control characters, a `\u00xx` escape
for the remaining control characters, and every other character literally. -/
def escChar (c : Char) : List Char :=
  if c = '"' then ['\\', '"']
  else if c = '\\' then ['\\', '\\']
  else if c = '\n' then ['\\', 'n']
  else if c = '\t' then ['\\', 't']
  else if c = '\r' then ['\\', 'r']
  else if c = Char.ofNat 8 then ['\\', 'b']
  else if c = Char.ofNat 12 then ['\\', 'f']
  else if c.toNat < 32 then
    ['\\', 'u', '0', '0', hexDigit (c.toNat / 16), hexDigit (c.toNat % 16)]
  else [c]

/-- JSON escaping of a character sequence. -/
def escList (cs : List Char) : List Char := (cs.map escChar).flatten

/-- A JSON string literal: opening quote, escaped body, closing quote. -/
def encStrQ (cs : List Char) : List Char := '"' :: (escList cs ++ ['"'])

/-- Meaning of a two-character escape sequence. -/
def unescChar (e : Char) : Option Char :=
  if e = '"' then some '"'
  else if e = '\\' then some '\\'
  else if e = '/' then some '/'
  else if e = 'n' then some '\n'
  else if e = 't' then some '\t'
  else if e = 'r' then some '\r'
  else if e = 'b' then some (Char.ofNat 8)
  else if e = 'f' then some (Char.ofNat 12)
  else none

/-- Body of a JSON string literal: characters and escapes up to the closing
quote; returns the decoded characters and the remaining input. -/
def parseStrBody : List Char → Option (List Char × List Char)
  | [] => none
  | c :: rest =>
    if c = '"' then some ([], rest)
    else if c = '\\' then
      match rest with
      | [] => none
      | e :: rest2 =>
        if e = 'u' then
          match rest2 with
          | a :: b :: c2 :: d :: rest3 =>
            match unhexDigit a, unhexDigit b, unhexDigit c2, unhexDigit d with
            | some ha, some hb, some hc, some hd =>
              (parseStrBody rest3).map
                (fun p => (Char.ofNat (((ha * 16 + hb) * 16 + hc) * 16 + hd) :: p.1, p.2))
            | _, _, _, _ => none
          | _ => none
        else
          match unescChar e with
          | some c3 => (parseStrBody rest2).map (fun p => (c3 :: p.1, p.2))
          | none => none
    else (parseStrBody rest).map (fun p => (c :: p.1, p.2))

/-- Greedily consume decimal digits, extending the accumulator. -/
def parseDigits : List Char → Nat → Nat × List Char
  | [], acc => (acc, [])
  | c :: rest, acc =>
    if c.isDigit then parseDigits rest (acc * 10 + (c.toNat - 48)) else (acc, c :: rest)

mutual

/-- Parse one JSON value (fuel-indexed; `decode` supplies ample fuel). -/
def parseVal : Nat → List Char → Option (JVal × List Char)
  | 0, _ => none
  | f + 1, l =>
    match skipWs l with
    | [] => none
    | c :: rest =>
      if c = '"' then (parseStrBody rest).map (fun p => (JVal.str (String.mk p.1), p.2))
      else if c = '{' then parseObjBody f rest
      else if c = '[' then parseArrBody f rest
      else if c = 't' then
        match rest with
        | 'r' :: 'u' :: 'e' :: r => some (.bool true, r)
        | _ => none
      else if c = 'f' then
        match rest with
        | 'a' :: 'l' :: 's' :: 'e' :: r => some (.bool false, r)
        | _ => none
      else if c = 'n' then
        match rest with
        | 'u' :: 'l' :: 'l' :: r => some (.null, r)
        | _ => none
      else if c = '-' then
        match rest with
        | d :: r2 =>
          if d.isDigit then
            let p := parseDigits r2 (d.toNat - 48)
            some (.num (-(p.1 : Int)), p.2)
          else none
        | [] => none
      else if c.isDigit then
        let p := parseDigits rest (c.toNat - 48)
        some (.num (p.1 : Int), p.2)
      else none

/-- Parse an object after its opening brace. -/
def parseObjBody : Nat → List Char → Option (JVal × List Char)
  | 0, _ => none
  | f + 1, l =>
    match skipWs l with
    | [] => none
    | c :: rest =>
      if c = '}' then some (.obj [], rest)
      else if c = '"' then
        match parseStrBody rest with
        | none => none
        | some (k, r1) =>
          match skipWs r1 with
          | ':' :: r2 =>
            match parseVal f r2 with
            | none => none
            | some (v, r3) =>
              (parseObjRest f r3).map (fun p => (JVal.obj ((String.mk k, v) :: p.1), p.2))
          | _ => none
      else none

/-- Parse the members of an object after its first member. -/
def parseObjRest : Nat → List Char → Option (List (String × JVal) × List Char)
  | 0, _ => none
  | f + 1, l =>
    match skipWs l with
    | [] => none
    | c :: rest =>
      if c = '}' then some ([], rest)
      else if c = ',' then
        match skipWs rest with
        | [] => none
        | c2 :: r0 =>
          if c2 = '"' then
            match parseStrBody r0 with
            | none => none
            | some (k, r1) =>
              match skipWs r1 with
              | ':' :: r2 =>
                match parseVal f r2 with
                | none => none
                | some (v, r3) =>
                  (parseObjRest f r3).map (fun p => ((String.mk k, v) :: p.1, p.2))
              | _ => none
          else none
      else none

/-- Parse an array after its opening bracket. -/
def parseArrBody : Nat → List Char → Option (JVal × List Char)
  | 0, _ => none
  | f + 1, l =>
    match skipWs l with
    | [] => none
    | c :: _ =>
      if c = ']' then some (.arr [], (skipWs l).tail)
      else
        match parseVal f l with
        | none => none
        | some (v, r1) => (parseArrRest f r1).map (fun p => (JVal.arr (v :: p.1), p.2))

/-- Parse the elements of an array after its first element. -/
def parseArrRest : Nat → List Char → Option (List JVal × List Char)
  | 0, _ => none
  | f + 1, l =>
    match skipWs l with
    | [] => none
    | c :: rest =>
      if c = ']' then some ([], rest)
      else if c = ',' then
        match parseVal f rest with
        | none => none
        | some (v, r1) => (parseArrRest f r1).map (fun p => (v :: p.1, p.2))
      else none

end

/-- Model of `ScrapyJSONDecoder.decode` (`json.loads`): parse one JSON value
and require only whitespace to remain; `none` models the `ValueError` the
source catches. Modelled from the spec: the decoder itself lives in an
external library. -/
def decode (s : String) : Option JVal :=
  match parseVal (2 * s.data.length + 2) s.data with
  | some (v, rest) => if skipWs rest = [] then some v else none
  | none => none

/-! ### The crawl event and its encoding -/

/-- The outgoing record built by `page_crawled`:
`\x7b'url': response.url, 'links': [link.url for link in links]\x7d`. -/
structure CrawlEvent where
  url : String
  links : List String
deriving DecidableEq, Repr

/-- `", "`-joined JSON string literals: the tail elements. -/
def encListRest : List (List Char) → List Char
  | [] => []
  | x :: rest => ',' :: ' ' :: (encStrQ x ++ encListRest rest)

/-- `", "`-joined JSON string literals. -/
def encList : List (List Char) → List Char
  | [] => []
  | x :: rest => encStrQ x ++ encListRest rest

/-- Characters of the encoded crawl event, exactly as `json.dumps` lays them
out with its default separators. -/
def eventChars (e : CrawlEvent) : List Char :=
  '{' :: (encStrQ ['u', 'r', 'l'] ++ ':' :: ' ' :: (encStrQ e.url.data ++
    ',' :: ' ' :: (encStrQ ['l', 'i', 'n', 'k', 's'] ++ ':' :: ' ' :: ('[' ::
      (encList (e.links.map String.data) ++ ']' :: '}' :: [])))))

/-- Model of `ScrapyJSONEncoder.encode` applied to the crawl-event record.
Modelled from the spec: deterministic, lossless structured serialization of
`\x7burl, links\x7d`. -/
def encode_event (e : CrawlEvent) : String := String.mk (eventChars e)

/-- The JSON value the encoded event denotes. -/
def eventJVal (e : CrawlEvent) : JVal :=
  .obj [("url", .str e.url), ("links", .arr (e.links.map JVal.str))]

/-- Read a JSON string back as a Lean string. -/
def asStr : JVal → Option String
  | .str s => some s
  | _ => none

/-- Spec-level inverse of the codec: decode the wire bytes and read them back
as a crawl event; any other shape is rejected. -/
def decode_event (s : String) : Option CrawlEvent :=
  match decode s with
  | some (.obj [(k1, .str u), (k2, .arr ls)]) =>
    if k1 = "url" ∧ k2 = "links" then
      (ls.mapM asStr).map (fun links => ⟨u, links⟩)
    else none
  | _ => none

example : decode "\x7b\"url\": 42\x7d" = some (.obj [("url", .num 42)]) := rfl
example : decode "\x7b\"url\": \"http://a\"\x7d" =
    some (.obj [("url", .str "http://a")]) := rfl
example : decode "\x7b\"url\"" = none := rfl
example : decode_event (encode_event ⟨"http://x/?a=\"1\"", ["a", "b\\c"]⟩) =
    some ⟨"http://x/?a=\"1\"", ["a", "b\\c"]⟩ := rfl

/-! ### The backend state machine

Each method of `KafkaBackend` becomes a function on an explicit state record.
Nondeterministic external behaviour is supplied through oracles: a `Bool` for
the outcome of a producer/consumer construction attempt, `Nat → Bool` for the
outcome of each `send_messages` call, and `Nat → List String` for the message
batch each `get_messages` poll returns. Broker interactions and log output
are recorded in an event trace. -/

/-- Python exceptions that can cross a method boundary in this file. -/
inductive PyErr where
  | attributeError
  | keyError
  | typeError
  | kafkaUnavailableError
deriving DecidableEq, Repr

/-- Warnings and infos emitted through `self._manager.logger.backend`. -/
inductive LogMsg where
  | prodConnectFail
  | consConnectFail
  | consStartOk
  | consStartFail
  | consGetFail
  | sendRetry (n tot : Nat)
  | noUrlField
  | decodeFail (m : String)
  | pollTimeout (fails tot : Nat)
deriving DecidableEq, Repr

/-- One observable event: a broker interaction or a log line. -/
inductive Ev where
  | opConnectProd (ok : Bool)
  | opConnectCons (ok : Bool)
  | opSend (msg : String) (ok : Bool)
  | opPoll (maxN : Nat) (timeout : Rat) (msgs : List String)
  | opProdStop
  | log (m : LogMsg)
deriving DecidableEq, Repr

/-- Does the event touch the broker (as opposed to being a log line)? -/
def Ev.isBrokerOp : Ev → Bool
  | .log _ => false
  | _ => true

/-- Is the event a `get_messages` poll? -/
def Ev.isPoll : Ev → Bool
  | .opPoll _ _ _ => true
  | _ => false

/-- Is the event a `send_messages` attempt? -/
def Ev.isSend : Ev → Bool
  | .opSend _ _ => true
  | _ => false

/-- The mutable state of a `KafkaBackend` instance: the configuration
attributes fixed by `__init__` plus the seed buffer and the two connection
handles (`_prod` / `_cons`, `true` standing for a live handle and `false`
for `None`). `σ` is the type of the opaque seed objects handed to
`add_seeds`. -/
structure KafkaBackend (σ : Type) where
  server : String
  group : String
  topic_todo : String
  topic_done : String
  wait_time : Rat
  comm_tries : Nat
  seeds : List σ
  prod : Bool
  cons : Bool
deriving Repr

/-- An element of the sequence returned by `get_next_requests`: either a seed
object returned as-is from the buffer, or a URL value wrapped in the
domain-level `Request` constructor. -/
inductive Item (σ : Type) where
  | raw (v : σ)
  | request (u : JVal)
deriving Repr

def DEFAULT_SERVER : String := "localhost:9092"
def DEFAULT_GROUP : String := "scrapy-crawler"
def DEFAULT_TOPIC_TODO : String := "frontier-todo"
def DEFAULT_TOPIC_DONE : String := "frontier-done"
def DEFAULT_WAIT_TIME : Rat := 1
def DEFAULT_COMM_TRIES : Nat := 5

/-- Python `x or default` for an optional string argument: `None` and the
empty string are falsy. -/
def pyOrStr (x : Option String) (d : String) : String :=
  match x with
  | none => d
  | some v => if v = "" then d else v

/-- Python `x or default` for an optional numeric argument: `None` and zero
are falsy. -/
def pyOrRat (x : Option Rat) (d : Rat) : Rat :=
  match x with
  | none => d
  | some v => if v = 0 then d else v

/-- Python `x or default` for an optional integer argument. -/
def pyOrNat (x : Option Nat) (d : Nat) : Nat :=
  match x with
  | none => d
  | some v => if v = 0 then d else v

/-- The keyword arguments of `KafkaBackend.__init__`; `none` models an
argument left at its `None` default. -/
structure KArgs where
  server : Option String := none
  group : Option String := none
  topic_todo : Option String := none
  topic_done : Option String := none
  wait_time : Option Rat := none
  comm_tries : Option Nat := none

/-- The configuration attributes `__init__` assigns, each via `x or DEFAULT`. -/
def resolveConf (σ : Type) (a : KArgs) : KafkaBackend σ :=
  { server := pyOrStr a.server DEFAULT_SERVER
    topic_todo := pyOrStr a.topic_todo DEFAULT_TOPIC_TODO
    topic_done := pyOrStr a.topic_done DEFAULT_TOPIC_DONE
    group := pyOrStr a.group DEFAULT_GROUP
    wait_time := pyOrRat a.wait_time DEFAULT_WAIT_TIME
    comm_tries := pyOrNat a.comm_tries DEFAULT_COMM_TRIES
    seeds := []
    prod := false
    cons := false }

/-- `_connect_producer`: if `_prod` is `None` try to construct a
`SimpleProducer` (outcome given by the oracle `ok`); on `BrokerResponseError`
leave `_prod` unset, warn, and report `False`; otherwise report `True`. -/
def connect_producer (ok : Bool) (s : KafkaBackend σ) :
    Bool × KafkaBackend σ × List Ev :=
  if s.prod then (true, s, [])
  else if ok then (true, { s with prod := true }, [.opConnectProd true])
  else (false, s, [.opConnectProd false, .log .prodConnectFail])

/-- `_connect_consumer`: if `_cons` is `None` try to construct a
`SimpleConsumer`; on `BrokerResponseError` leave `_cons` unset, warn, and
report `False`; otherwise report `True`. -/
def connect_consumer (ok : Bool) (s : KafkaBackend σ) :
    Bool × KafkaBackend σ × List Ev :=
  if s.cons then (true, s, [])
  else if ok then (true, { s with cons := true }, [.opConnectCons true])
  else (false, s, [.opConnectCons false, .log .consConnectFail])

/-- `KafkaBackend.__init__`: resolve the configuration, construct the
`KafkaClient` (fatal `KafkaUnavailableError` when `clientOk` is false), then
eagerly attempt both connections, tolerating their failure. -/
def kafka_init (σ : Type) (clientOk consOk prodOk : Bool) (a : KArgs) :
    Except PyErr (KafkaBackend σ × List Ev) :=
  if clientOk then
    let s0 := resolveConf σ a
    let (_, s1, t1) := connect_consumer consOk s0
    let (_, s2, t2) := connect_producer prodOk s1
    .ok (s2, t1 ++ t2)
  else .error .kafkaUnavailableError

/-- `frontier_start`: attempt the consumer connection and log the outcome;
either way the backend is started. -/
def frontier_start (consOk : Bool) (s : KafkaBackend σ) :
    KafkaBackend σ × List Ev :=
  let (connected, s1, t1) := connect_consumer consOk s
  if connected then (s1, t1 ++ [.log .consStartOk])
  else (s1, t1 ++ [.log .consStartFail])

/-- `frontier_stop`: `self._prod.stop()` with no `None` guard — when the
producer was never connected this is `None.stop()`, an `AttributeError`. -/
def frontier_stop (s : KafkaBackend σ) :
    Except PyErr (KafkaBackend σ × List Ev) :=
  if s.prod then .ok (s, [.opProdStop]) else .error .attributeError

/-- `add_seeds`: `self._seeds += seeds`. -/
def add_seeds (ss : List σ) (s : KafkaBackend σ) : KafkaBackend σ :=
  { s with seeds := s.seeds ++ ss }

/-- `request_error`: a deliberate no-op. -/
def request_error (s : KafkaBackend σ) : KafkaBackend σ := s

/-- The retry loop inside `_send_message`: while not successful and fewer
than `comm_tries` tries, attempt the send (outcome from the oracle), counting
and logging each failure. `remaining` is `comm_tries - n_tries`. -/
def sendLoop (outcome : Nat → Bool) (msg : String) (tot : Nat) (nTries : Nat) :
    Nat → Bool × List Ev
  | 0 => (false, [])
  | r + 1 =>
    if outcome nTries then (true, [.opSend msg true])
    else
      let rest := sendLoop outcome msg tot (nTries + 1) r
      (rest.1, .opSend msg false :: .log (.sendRetry (nTries + 1) tot) :: rest.2)

/-- `_send_message`: ensure the producer once, encode, then retry the send up
to `comm_tries` times; a disconnected producer short-circuits to failure. -/
def send_message (prodOk : Bool) (outcome : Nat → Bool) (e : CrawlEvent)
    (s : KafkaBackend σ) : Bool × KafkaBackend σ × List Ev :=
  let (connected, s1, t1) := connect_producer prodOk s
  if connected then
    let msg := encode_event e
    let r := sendLoop outcome msg s1.comm_tries 0 s1.comm_tries
    (r.1, s1, t1 ++ r.2)
  else (false, s1, t1)

/-- `page_crawled`: build the crawl event from the response URL and the link
URLs and hand it to `_send_message` (whose boolean result Python discards;
it is kept here for observability). -/
def page_crawled (prodOk : Bool) (outcome : Nat → Bool) (url : String)
    (links : List String) (s : KafkaBackend σ) :
    Bool × KafkaBackend σ × List Ev :=
  send_message prodOk outcome ⟨url, links⟩ s

/-- Python `obj['url']`: key lookup on a dict, `KeyError` when the key is
missing, `TypeError` when the value is not a dict at all. The value found is
returned whatever its type. -/
def py_getitem (j : JVal) (k : String) : Except PyErr JVal :=
  match j with
  | .obj kvs =>
    match kvs.lookup k with
    | some v => .ok v
    | none => .error .keyError
  | _ => .error .typeError

/-- Handling of one polled message inside `get_next_requests`: decode it
(`ValueError` caught and logged), then take `obj['url']` (`KeyError` and
`TypeError` caught and logged); a surviving value is appended to `urls`. -/
def processMsg (m : String) : List JVal × List Ev :=
  match decode m with
  | none => ([], [.log (.decodeFail m)])
  | some j =>
    match py_getitem j "url" with
    | .ok v => ([v], [])
    | .error _ => ([], [.log .noUrlField])

/-- The `for offmsg in ...` loop body applied to a whole batch. -/
def processBatch : List String → List JVal × List Ev
  | [] => ([], [])
  | m :: rest =>
    let h := processMsg m
    let t := processBatch rest
    (h.1 ++ t.1, h.2 ++ t.2)

/-- The polling loop of `get_next_requests`: while no poll has yet returned a
message and fewer than `comm_tries` polls have failed, poll once; a non-empty
batch is processed and ends the loop, an empty batch counts one failure and
is logged. `remaining` is `comm_tries - fails`; the oracle is indexed by the
poll number, which equals `fails` because every earlier poll was empty. -/
def pollLoop (polls : Nat → List String) (maxN : Nat) (wait : Rat) (tot : Nat)
    (fails : Nat) : Nat → List JVal × List Ev
  | 0 => ([], [])
  | r + 1 =>
    let msgs := polls fails
    if msgs.isEmpty then
      let rest := pollLoop polls maxN wait tot (fails + 1) r
      (rest.1, .opPoll maxN wait msgs :: .log (.pollTimeout (fails + 1) tot) :: rest.2)
    else
      let p := processBatch msgs
      (p.1, .opPoll maxN wait msgs :: p.2)

/-- `get_next_requests`: when the seed buffer is non-empty, drain up to
`max_n_requests` seeds FIFO and return them untouched; otherwise ensure the
consumer (warn and return `[]` on failure) and run the polling loop, wrapping
each collected URL value in `Request`. The `Except` layer is the channel any
uncaught Python exception would use; no branch of this method raises. -/
def get_next_requests (consOk : Bool) (polls : Nat → List String)
    (max_n_requests : Nat) (s : KafkaBackend σ) :
    Except PyErr (List (Item σ) × KafkaBackend σ × List Ev) :=
  if !s.seeds.isEmpty then
    let n := min s.seeds.length max_n_requests
    .ok ((s.seeds.take n).map .raw, { s with seeds := s.seeds.drop n }, [])
  else
    let (connected, s1, t1) := connect_consumer consOk s
    if connected then
      let r := pollLoop polls max_n_requests s1.wait_time s1.comm_tries 0 s1.comm_tries
      .ok (r.1.map .request, s1, t1 ++ r.2)
    else
      .ok ([], s1, t1 ++ [.log .consGetFail])

/-- A frontier-manager call relevant to the seed-buffer claims. -/
inductive FOp (σ : Type) where
  | add (ss : List σ)
  | get (n : Nat)

/-- Run a sequence of `add_seeds` / `get_next_requests` calls, collecting the
sequences each `get` returned. An `error` outcome from a `get` would abort
the run; `get_next_requests` never produces one. -/
def runOps (consOk : Bool) (polls : Nat → List String) :
    List (FOp σ) → KafkaBackend σ → List (List (Item σ)) × KafkaBackend σ
  | [], s => ([], s)
  | .add ss :: ops, s => runOps consOk polls ops (add_seeds ss s)
  | .get n :: ops, s =>
    match get_next_requests consOk polls n s with
    | .ok (items, s1, _) =>
      let r := runOps consOk polls ops s1
      (items :: r.1, r.2)
    | .error _ => ([], s)

/-! ### Concrete fixtures used by witnesses -/

/-- A backend state as `__init__` leaves it with all-default arguments and
both connection attempts failed. -/
def initialState : KafkaBackend Unit := resolveConf Unit {}

/-- A backend holding three buffered seeds. -/
def seededState : KafkaBackend String :=
  { resolveConf String {} with seeds := ["http://a", "http://b", "http://c"] }

/-- A backend with an empty buffer and a live consumer, `comm_tries = 3`. -/
def idleTopicState : KafkaBackend Unit :=
  { resolveConf Unit { comm_tries := some 3 } with cons := true }

/-- A backend with a live producer. -/
def producerState : KafkaBackend Unit :=
  { resolveConf Unit {} with prod := true }

/-- A backend with an empty seed buffer (string-typed seeds). -/
def emptyBufState : KafkaBackend String := resolveConf String {}

/-- Constructor arguments with a truthy server and retry count but a falsy
(zero) wait time. -/
def truthyArgs : KArgs :=
  { server := some "k:9092", wait_time := some 0, comm_tries := some 3 }

/-- A well-formed incoming message. -/
def goodMsg : String := "\x7b\"url\": \"http://a\"\x7d"

/-- A structurally valid message with no `url` field. -/
def noUrlMsg : String := "\x7b\"foo\": 1\x7d"

/-- A structurally valid message whose `url` field is a number, not a
string. -/
def numUrlMsg : String := "\x7b\"url\": 42\x7d"

/-! ### Theorems -/

/-- C3 counterexample: passing `wait_time = 0` explicitly does not yield a
per-attempt wait of `0`; the `or`-default replaces the falsy `0` with the
default `1.0`. -/
theorem wait_time_zero_not_honored :
    (resolveConf Unit { wait_time := some 0 }).wait_time = DEFAULT_WAIT_TIME ∧
    DEFAULT_WAIT_TIME ≠ (0 : Rat) := by
  constructor
  · rfl
  · intro h
    simp [DEFAULT_WAIT_TIME] at h

/-- C3 (amended): `__init__` resolves every configuration attribute with
Python `or`, so a truthy explicit value is used exactly, while an unset OR
falsy value (`None`, `0`, the empty string) is replaced by the documented
default; in particular `wait_time = 0` yields the default `1.0`. -/
theorem init_config_or_defaults (σ : Type) (a : KArgs) :
    (∀ v, a.server = some v → v ≠ "" → (resolveConf σ a).server = v) ∧
    ((a.server = none ∨ a.server = some "") →
      (resolveConf σ a).server = DEFAULT_SERVER) ∧
    (∀ v, a.group = some v → v ≠ "" → (resolveConf σ a).group = v) ∧
    ((a.group = none ∨ a.group = some "") →
      (resolveConf σ a).group = DEFAULT_GROUP) ∧
    (∀ v, a.topic_todo = some v → v ≠ "" → (resolveConf σ a).topic_todo = v) ∧
    ((a.topic_todo = none ∨ a.topic_todo = some "") →
      (resolveConf σ a).topic_todo = DEFAULT_TOPIC_TODO) ∧
    (∀ v, a.topic_done = some v → v ≠ "" → (resolveConf σ a).topic_done = v) ∧
    ((a.topic_done = none ∨ a.topic_done = some "") →
      (resolveConf σ a).topic_done = DEFAULT_TOPIC_DONE) ∧
    (∀ v, a.wait_time = some v → v ≠ 0 → (resolveConf σ a).wait_time = v) ∧
    ((a.wait_time = none ∨ a.wait_time = some 0) →
      (resolveConf σ a).wait_time = DEFAULT_WAIT_TIME) ∧
    (∀ v, a.comm_tries = some v → v ≠ 0 → (resolveConf σ a).comm_tries = v) ∧
    ((a.comm_tries = none ∨ a.comm_tries = some 0) →
      (resolveConf σ a).comm_tries = DEFAULT_COMM_TRIES) := by
  refine ⟨?_, ?_, ?_, ?_, ?_, ?_, ?_, ?_, ?_, ?_, ?_, ?_⟩
  all_goals
    first
    | (intro v hv hne; simp [resolveConf, pyOrStr, pyOrRat, pyOrNat, hv, hne])
    | (rintro (h | h) <;> simp [resolveConf, pyOrStr, pyOrRat, pyOrNat, h])

/-- C3 witness: a truthy `server` and `comm_tries` survive exactly, while
`wait_time = 0` falls back to the default. -/
theorem init_config_or_defaults_witness :
    (resolveConf Unit truthyArgs).server = "k:9092" ∧
    (resolveConf Unit truthyArgs).comm_tries = 3 ∧
    (resolveConf Unit truthyArgs).wait_time = DEFAULT_WAIT_TIME := by
  have h := init_config_or_defaults Unit truthyArgs
  exact ⟨h.1 "k:9092" rfl (by decide),
    h.2.2.2.2.2.2.2.2.2.2.1 3 rfl (by decide),
    h.2.2.2.2.2.2.2.2.2.1 (Or.inr rfl)⟩

/-- C2: the code raises where the claim promises success. After an
`__init__` in which the producer connection failed (broker down), `_prod` is
`None`; `frontier_stop` then executes `None.stop()` and raises
`AttributeError` instead of transitioning cleanly. -/
theorem frontier_stop_raises_without_producer :
    kafka_init Unit true false false {} =
      .ok (initialState, [.opConnectCons false, .log .consConnectFail,
        .opConnectProd false, .log .prodConnectFail]) ∧
    frontier_stop (frontier_start false initialState).1 =
      .error PyErr.attributeError := ⟨rfl, rfl⟩

/-- C7: a `get_next_requests` call that begins with a non-empty seed buffer
drains up to `max_n` seeds FIFO and returns them with an empty event trace —
no connect attempt and no poll reach the broker in that call. -/
theorem get_next_seed_priority (consOk : Bool) (polls : Nat → List String)
    (n : Nat) (s : KafkaBackend σ) (h : s.seeds ≠ []) :
    get_next_requests consOk polls n s =
      .ok ((s.seeds.take (min s.seeds.length n)).map .raw,
        { s with seeds := s.seeds.drop (min s.seeds.length n) }, []) := by
  simp [get_next_requests, h]

/-- C7 witness: three seeds, `max_n = 2` — the first two seeds come back,
the third stays buffered, the trace is empty. -/
theorem get_next_seed_priority_witness :
    seededState.seeds ≠ [] ∧
    get_next_requests true (fun _ => []) 2 seededState =
      .ok ([.raw "http://a", .raw "http://b"],
        { seededState with seeds := ["http://c"] }, []) := by
  refine ⟨by decide, ?_⟩
  exact get_next_seed_priority true (fun _ => []) 2 seededState (by decide)

/-- C8: with an empty buffer, an unconnected consumer and a failing connect
attempt, `get_next_requests` records the warning and returns the empty
sequence through the ordinary return path (`.ok`, not an exception); the
connection failure itself surfaces only as `_connect_consumer`'s boolean. -/
theorem get_next_consumer_unreachable (polls : Nat → List String) (n : Nat)
    (s : KafkaBackend σ) (h1 : s.seeds = []) (h2 : s.cons = false) :
    (connect_consumer false s).1 = false ∧
    get_next_requests false polls n s =
      .ok ([], s, [.opConnectCons false, .log .consConnectFail,
        .log .consGetFail]) := by
  constructor
  · simp [connect_consumer, h2]
  · simp [get_next_requests, h1, connect_consumer, h2]

/-- C8 witness: the all-defaults state with the broker down. -/
theorem get_next_consumer_unreachable_witness :
    initialState.seeds = [] ∧ initialState.cons = false ∧
    ((connect_consumer false initialState).1 = false ∧
      get_next_requests false (fun _ => []) 10 initialState =
        .ok ([], initialState, [.opConnectCons false, .log .consConnectFail,
          .log .consGetFail])) :=
  ⟨rfl, rfl, get_next_consumer_unreachable (fun _ => []) 10 initialState rfl rfl⟩

/-- C10: items served from the seed buffer are the buffered objects
themselves (`Item.raw`, no `Request` wrapper), while every item produced by
the broker path is wrapped in `Request` (`Item.request`). -/
theorem seed_items_raw_broker_items_wrapped (consOk : Bool)
    (polls : Nat → List String) (n : Nat) (s t : KafkaBackend σ)
    (hs : s.seeds ≠ []) (ht : t.seeds = []) :
    get_next_requests consOk polls n s =
      .ok ((s.seeds.take (min s.seeds.length n)).map .raw,
        { s with seeds := s.seeds.drop (min s.seeds.length n) }, []) ∧
    (∀ out t2 tr, get_next_requests consOk polls n t = .ok (out, t2, tr) →
      ∀ x ∈ out, ∃ u, x = Item.request u) := by
  refine ⟨by simp [get_next_requests, hs], ?_⟩
  intro out t2 tr hok x hx
  rcases hcc : connect_consumer consOk t with ⟨b, s1, tr1⟩
  simp [get_next_requests, ht, hcc] at hok
  cases b with
  | false =>
    simp at hok
    obtain ⟨h1, -, -⟩ := hok
    subst h1
    simp at hx
  | true =>
    simp at hok
    obtain ⟨h1, -, -⟩ := hok
    subst h1
    simp [List.mem_map] at hx
    obtain ⟨u, -, hu⟩ := hx
    exact ⟨u, hu.symm⟩

/-- C10 witness: seeds come back raw; the broker path of an empty-buffer
state only ever yields `Request`-wrapped items. -/
theorem seed_items_raw_broker_items_wrapped_witness :
    seededState.seeds ≠ [] ∧ emptyBufState.seeds = [] ∧
    (get_next_requests true (fun _ => []) 2 seededState =
      .ok ((seededState.seeds.take (min seededState.seeds.length 2)).map .raw,
        { seededState with
          seeds := seededState.seeds.drop (min seededState.seeds.length 2) }, []) ∧
    (∀ out t2 tr,
      get_next_requests true (fun _ => []) 2 emptyBufState = .ok (out, t2, tr) →
      ∀ x ∈ out, ∃ u, x = Item.request u)) :=
  ⟨by decide, rfl,
    seed_items_raw_broker_items_wrapped true (fun _ => []) 2 seededState
      emptyBufState (by decide) rfl⟩

/-- Every round of the polling loop against an idle topic polls once, finds
no messages, and logs a timeout: after `r` remaining rounds the loop yields
no URLs and its trace holds exactly `r` polls, each with the configured
batch size and timeout. -/
theorem pollLoop_all_empty (polls : Nat → List String) (maxN : Nat)
    (wait : Rat) (tot : Nat) (hp : ∀ k, polls k = []) :
    ∀ r fails,
      (pollLoop polls maxN wait tot fails r).1 = [] ∧
      (pollLoop polls maxN wait tot fails r).2.countP Ev.isPoll = r ∧
      ∀ e ∈ (pollLoop polls maxN wait tot fails r).2,
        Ev.isPoll e = true → e = .opPoll maxN wait [] := by
  intro r
  induction r with
  | zero => intro fails; simp [pollLoop]
  | succ r ih =>
    intro fails
    obtain ⟨h1, h2, h3⟩ := ih (fails + 1)
    refine ⟨?_, ?_, ?_⟩
    · simp [pollLoop, hp fails, h1]
    · simp [pollLoop, hp fails, List.countP_cons, Ev.isPoll, h2]
    · intro e he hp2
      simp [pollLoop, hp fails] at he
      rcases he with rfl | rfl | he
      · rfl
      · simp [Ev.isPoll] at hp2
      · exact h3 e he hp2

/-- C4: a `get_next_requests` call with an empty buffer and a connected
consumer against a topic whose every poll is empty performs exactly
`comm_tries` polls — each passing the configured batch size and timeout to
`get_messages` — and then returns the empty sequence, leaving the state
unchanged. -/
theorem get_next_idle_topic_exhausts_polls (consOk : Bool)
    (polls : Nat → List String) (maxN : Nat) (s : KafkaBackend σ)
    (h1 : s.seeds = []) (h2 : s.cons = true) (hp : ∀ k, polls k = []) :
    ∃ tr, get_next_requests consOk polls maxN s = .ok ([], s, tr) ∧
      tr.countP Ev.isPoll = s.comm_tries ∧
      ∀ e ∈ tr, Ev.isPoll e = true → e = .opPoll maxN s.wait_time [] := by
  have hcc : connect_consumer consOk s = (true, s, []) := by
    simp [connect_consumer, h2]
  obtain ⟨e1, e2, e3⟩ :=
    pollLoop_all_empty polls maxN s.wait_time s.comm_tries hp s.comm_tries 0
  refine ⟨(pollLoop polls maxN s.wait_time s.comm_tries 0 s.comm_tries).2,
    ?_, e2, e3⟩
  simp [get_next_requests, h1, hcc, e1]

/-- C4 witness: `comm_tries = 3`, a always-empty topic, `max_n = 10` — the
call returns `[]` after exactly three polls, each with timeout `1`. -/
theorem get_next_idle_topic_exhausts_polls_witness :
    idleTopicState.seeds = [] ∧ idleTopicState.cons = true ∧
    ∃ tr, get_next_requests true (fun _ => []) 10 idleTopicState =
        .ok ([], idleTopicState, tr) ∧
      tr.countP Ev.isPoll = 3 ∧
      ∀ e ∈ tr, Ev.isPoll e = true → e = .opPoll 10 1 [] :=
  ⟨rfl, rfl,
    get_next_idle_topic_exhausts_polls true (fun _ => []) 10 idleTopicState
      rfl rfl (fun _ => rfl)⟩

/-- When every send attempt fails, the retry loop of `_send_message` reports
failure after exactly its remaining number of attempts. -/
theorem sendLoop_all_fail (outcome : Nat → Bool) (msg : String) (tot : Nat)
    (hf : ∀ k, outcome k = false) :
    ∀ r n, (sendLoop outcome msg tot n r).1 = false ∧
      (sendLoop outcome msg tot n r).2.countP Ev.isSend = r := by
  intro r
  induction r with
  | zero => intro n; simp [sendLoop]
  | succ r ih =>
    intro n
    obtain ⟨h1, h2⟩ := ih (n + 1)
    constructor
    · simp [sendLoop, hf n, h1]
    · simp [sendLoop, hf n, List.countP_cons, Ev.isSend, h2]

/-- C5: a `page_crawled` call with a connected producer whose every
`send_messages` attempt raises a broker response error performs exactly
`comm_tries` send attempts, no more, and reports overall failure. -/
theorem page_crawled_exhausts_attempts (prodOk : Bool) (outcome : Nat → Bool)
    (url : String) (links : List String) (s : KafkaBackend σ)
    (hprod : s.prod = true) (hf : ∀ k, outcome k = false) :
    ∃ tr, page_crawled prodOk outcome url links s = (false, s, tr) ∧
      tr.countP Ev.isSend = s.comm_tries := by
  have hcp : connect_producer prodOk s = (true, s, []) := by
    simp [connect_producer, hprod]
  obtain ⟨h1, h2⟩ :=
    sendLoop_all_fail outcome (encode_event ⟨url, links⟩) s.comm_tries hf
      s.comm_tries 0
  refine ⟨(sendLoop outcome (encode_event ⟨url, links⟩) s.comm_tries 0
    s.comm_tries).2, ?_, h2⟩
  simp [page_crawled, send_message, hcp, h1]

/-- C5 witness: a live producer with the default five tries and an
always-failing broker — five send attempts, overall failure. -/
theorem page_crawled_exhausts_attempts_witness :
    producerState.prod = true ∧
    ∃ tr, page_crawled true (fun _ => false) "http://u" [] producerState =
        (false, producerState, tr) ∧
      tr.countP Ev.isSend = 5 :=
  ⟨rfl,
    page_crawled_exhausts_attempts true (fun _ => false) "http://u" []
      producerState rfl (fun _ => rfl)⟩

/-- C6 counterexample: a message whose `url` field is present but is a
number, not a string, is NOT discarded — the code only catches `KeyError`
and `TypeError` from `obj['url']` and never checks the value's type, so the
number is collected as a URL. -/
theorem nonstring_url_field_not_discarded :
    (processBatch [numUrlMsg]).1 = [JVal.num 42] ∧
    [JVal.num 42] ≠ ([] : List JVal) := ⟨rfl, by simp⟩

/-- C6 (amended): a message that fails to decode, or whose decoded value
does not support `obj['url']` (not a dict, or no `url` key), is discarded
individually — with a log line — while the rest of the batch is processed;
the type of a present `url` value is not checked. In particular one
well-formed message plus one message missing `url` yield exactly the
well-formed URL. -/
theorem malformed_message_discarded_individually (pre post : List String)
    (m : String)
    (h : decode m = none ∨
      ∃ j, decode m = some j ∧ ∃ er, py_getitem j "url" = .error er) :
    (processBatch (pre ++ m :: post)).1 =
      (processBatch pre).1 ++ (processBatch post).1 := by
  have hm : (processMsg m).1 = [] := by
    rcases h with h | ⟨j, hj, er, he⟩
    · simp [processMsg, h]
    · simp [processMsg, hj, he]
  induction pre with
  | nil => simp [processBatch, hm]
  | cons a pre ih => simp [processBatch, ih, List.append_assoc]

/-- C6 witness: the two-message batch from the spec scenario — one
well-formed message and one missing the `url` field — yields exactly the
well-formed URL. -/
theorem malformed_message_discarded_individually_witness :
    (processBatch [goodMsg, noUrlMsg]).1 =
      (processBatch [goodMsg]).1 ++ (processBatch []).1 ∧
    (processBatch [goodMsg, noUrlMsg]).1 = [JVal.str "http://a"] :=
  ⟨malformed_message_discarded_individually [goodMsg] [] noUrlMsg
    (Or.inr ⟨.obj [("foo", .num 1)], rfl, .keyError, rfl⟩), rfl⟩

/-- A prefix of `add_seeds` calls only extends the seed buffer, in order. -/
theorem runOps_adds (consOk : Bool) (polls : Nat → List String) :
    ∀ (bs : List (List σ)) (gets : List (FOp σ)) (s : KafkaBackend σ),
      runOps consOk polls (bs.map FOp.add ++ gets) s =
        runOps consOk polls gets { s with seeds := s.seeds ++ bs.flatten } := by
  intro bs
  induction bs with
  | nil => intro gets s; simp
  | cons b bs ih =>
    intro gets s
    have step : runOps consOk polls ((b :: bs).map FOp.add ++ gets) s =
        runOps consOk polls (bs.map FOp.add ++ gets) (add_seeds b s) := rfl
    rw [step, ih]
    simp [add_seeds, List.append_assoc]

/-- Draining through `get_next_requests` with the broker down: the returned
sequences concatenate, together with what remains buffered, to exactly the
original buffer (in order), one sequence per call, each within its bound;
the consumer stays unconnected. -/
theorem runOps_gets_broker_down (polls : Nat → List String) :
    ∀ (ns : List Nat) (s : KafkaBackend σ), s.cons = false →
      (runOps false polls (ns.map FOp.get) s).1.length = ns.length ∧
      (runOps false polls (ns.map FOp.get) s).1.flatten ++
        (runOps false polls (ns.map FOp.get) s).2.seeds.map Item.raw =
        s.seeds.map Item.raw ∧
      (runOps false polls (ns.map FOp.get) s).2.cons = false ∧
      ∀ p ∈ (runOps false polls (ns.map FOp.get) s).1.zip ns,
        p.1.length ≤ p.2 := by
  intro ns
  induction ns with
  | nil => intro s hc; simp [runOps, hc]
  | cons n ns ih =>
    intro s hc
    by_cases hs : s.seeds = []
    · have hget : get_next_requests false polls n s =
          .ok ([], s, [.opConnectCons false, .log .consConnectFail,
            .log .consGetFail]) := by
        simp [get_next_requests, hs, connect_consumer, hc]
      obtain ⟨ih1, ih2, ih3, ih4⟩ := ih s hc
      simp only [List.map_cons, runOps, hget]
      refine ⟨by simp [ih1], by simpa using ih2, ih3, ?_⟩
      intro p hp
      simp only [List.zip_cons_cons, List.mem_cons] at hp
      rcases hp with rfl | hp
      · simp
      · exact ih4 p hp
    · have hget : get_next_requests false polls n s =
          .ok ((s.seeds.take (min s.seeds.length n)).map .raw,
            { s with seeds := s.seeds.drop (min s.seeds.length n) }, []) := by
        simp [get_next_requests, hs]
      obtain ⟨ih1, ih2, ih3, ih4⟩ :=
        ih { s with seeds := s.seeds.drop (min s.seeds.length n) } hc
      simp only [List.map_cons, runOps, hget]
      refine ⟨by simp [ih1], ?_, ih3, ?_⟩
      · simp only [List.flatten_cons, List.append_assoc]
        rw [ih2]
        simp [← List.map_append, List.take_append_drop]
      · intro p hp
        simp only [List.zip_cons_cons, List.mem_cons] at hp
        rcases hp with rfl | hp
        · simp only [List.length_map, List.length_take]
          omega
        · exact ih4 p hp

/-- C1: with the broker unreachable and the consumer never connected, any
sequence of `add_seeds` calls followed by `get_next_requests` calls serves
the added items FIFO: the returned sequences, concatenated in call order,
followed by what is still buffered, equal the added items in add order (so
nothing is duplicated, lost, or returned twice); when the buffer ends empty
the returned concatenation IS the added sequence; and each call returns at
most its requested number of items. -/
theorem seed_buffer_fifo_exact (polls : Nat → List String)
    (batches : List (List σ)) (ns : List Nat) (s : KafkaBackend σ)
    (h0 : s.seeds = []) (hc : s.cons = false) :
    (runOps false polls
      (batches.map FOp.add ++ ns.map FOp.get) s).1.length = ns.length ∧
    (runOps false polls (batches.map FOp.add ++ ns.map FOp.get) s).1.flatten ++
      (runOps false polls
        (batches.map FOp.add ++ ns.map FOp.get) s).2.seeds.map Item.raw =
      batches.flatten.map Item.raw ∧
    ((runOps false polls (batches.map FOp.add ++ ns.map FOp.get) s).2.seeds = [] →
      (runOps false polls (batches.map FOp.add ++ ns.map FOp.get) s).1.flatten =
        batches.flatten.map Item.raw) ∧
    ∀ p ∈ (runOps false polls
        (batches.map FOp.add ++ ns.map FOp.get) s).1.zip ns,
      p.1.length ≤ p.2 := by
  rw [runOps_adds, h0]
  obtain ⟨h1, h2, h3, h4⟩ := runOps_gets_broker_down polls ns
    { s with seeds := [] ++ batches.flatten } (by simpa using hc)
  refine ⟨h1, by simpa using h2, ?_, h4⟩
  intro he
  rw [he] at h2
  simpa using h2

/-- C1 witness: two add calls (`["http://a", "http://b"]` then
`["http://c"]`) followed by two gets (`n = 2` then `n = 5`): the conclusion
of the FIFO theorem at this concrete run. -/
theorem seed_buffer_fifo_exact_witness :
    emptyBufState.seeds = [] ∧ emptyBufState.cons = false ∧
    ((runOps false (fun _ => [])
      ([["http://a", "http://b"], ["http://c"]].map FOp.add ++
        [2, 5].map FOp.get) emptyBufState).1.length = 2 ∧
    (runOps false (fun _ => [])
      ([["http://a", "http://b"], ["http://c"]].map FOp.add ++
        [2, 5].map FOp.get) emptyBufState).1.flatten ++
      (runOps false (fun _ => [])
        ([["http://a", "http://b"], ["http://c"]].map FOp.add ++
          [2, 5].map FOp.get) emptyBufState).2.seeds.map Item.raw =
      [["http://a", "http://b"], ["http://c"]].flatten.map Item.raw ∧
    ((runOps false (fun _ => [])
        ([["http://a", "http://b"], ["http://c"]].map FOp.add ++
          [2, 5].map FOp.get) emptyBufState).2.seeds = [] →
      (runOps false (fun _ => [])
        ([["http://a", "http://b"], ["http://c"]].map FOp.add ++
          [2, 5].map FOp.get) emptyBufState).1.flatten =
        [["http://a", "http://b"], ["http://c"]].flatten.map Item.raw) ∧
    ∀ p ∈ (runOps false (fun _ => [])
        ([["http://a", "http://b"], ["http://c"]].map FOp.add ++
          [2, 5].map FOp.get) emptyBufState).1.zip [2, 5],
      p.1.length ≤ p.2) :=
  ⟨rfl, rfl,
    seed_buffer_fifo_exact (fun _ => []) [["http://a", "http://b"], ["http://c"]]
      [2, 5] emptyBufState rfl rfl⟩

/-- `skipWs` keeps a list whose head is not whitespace. -/
theorem skipWs_cons_nws (c : Char) (l : List Char) (h : isWsChar c = false) :
    skipWs (c :: l) = c :: l := by
  simp [skipWs, h]

/-- A closing quote ends the string body. -/
theorem parseStrBody_quote (l : List Char) :
    parseStrBody ('"' :: l) = some ([], l) := by
  rw [parseStrBody.eq_def]
  simp

/-- An ordinary character is consumed literally. -/
theorem parseStrBody_other (c : Char) (h1 : c ≠ '"') (h2 : c ≠ '\\')
    (l : List Char) :
    parseStrBody (c :: l) = (parseStrBody l).map (fun p => (c :: p.1, p.2)) := by
  rw [parseStrBody.eq_def]
  simp [h1, h2]

/-- A two-character escape is consumed as its meaning. -/
theorem parseStrBody_escaped (e c3 : Char) (he : unescChar e = some c3)
    (hu : e ≠ 'u') (l : List Char) :
    parseStrBody ('\\' :: e :: l) =
      (parseStrBody l).map (fun p => (c3 :: p.1, p.2)) := by
  rw [parseStrBody.eq_def]
  simp [hu, he]

/-- A `\uXXXX` escape with valid hex digits is consumed as its code point. -/
theorem parseStrBody_unicode (a b c2 d : Char) (ha hb hc hd : Nat)
    (h1 : unhexDigit a = some ha) (h2 : unhexDigit b = some hb)
    (h3 : unhexDigit c2 = some hc) (h4 : unhexDigit d = some hd)
    (l : List Char) :
    parseStrBody ('\\' :: 'u' :: a :: b :: c2 :: d :: l) =
      (parseStrBody l).map
        (fun p => (Char.ofNat (((ha * 16 + hb) * 16 + hc) * 16 + hd) :: p.1, p.2)) := by
  rw [parseStrBody.eq_def]
  simp [h1, h2, h3, h4]

/-- Hex printing then reading is the identity below 16. -/
theorem unhex_hexDigit (m : Nat) (h : m < 16) :
    unhexDigit (hexDigit m) = some m := by
  interval_cases m <;> rfl

/-- The string body parser inverts the escaper: an escaped character
sequence followed by the closing quote parses back to the sequence. -/
theorem parseStrBody_esc (cs : List Char) (rest : List Char) :
    parseStrBody (escList cs ++ '"' :: rest) = some (cs, rest) := by
  induction cs with
  | nil => simpa [escList] using parseStrBody_quote rest
  | cons c cs ih =>
    have hstep : escList (c :: cs) ++ '"' :: rest =
        escChar c ++ (escList cs ++ '"' :: rest) := by
      simp [escList]
    rw [hstep]
    by_cases h1 : c = '"'
    · subst h1
      rw [show escChar '"' = ['\\', '"'] from rfl]
      rw [show (['\\', '"'] : List Char) ++ (escList cs ++ '"' :: rest) =
        '\\' :: '"' :: (escList cs ++ '"' :: rest) from rfl]
      rw [parseStrBody_escaped '"' '"' rfl (by decide), ih]
      rfl
    by_cases h2 : c = '\\'
    · subst h2
      rw [show escChar '\\' = ['\\', '\\'] from rfl]
      rw [show (['\\', '\\'] : List Char) ++ (escList cs ++ '"' :: rest) =
        '\\' :: '\\' :: (escList cs ++ '"' :: rest) from rfl]
      rw [parseStrBody_escaped '\\' '\\' rfl (by decide), ih]
      rfl
    by_cases h3 : c = '\n'
    · subst h3
      rw [show escChar '\n' = ['\\', 'n'] from rfl]
      rw [show (['\\', 'n'] : List Char) ++ (escList cs ++ '"' :: rest) =
        '\\' :: 'n' :: (escList cs ++ '"' :: rest) from rfl]
      rw [parseStrBody_escaped 'n' '\n' rfl (by decide), ih]
      rfl
    by_cases h4 : c = '\t'
    · subst h4
      rw [show escChar '\t' = ['\\', 't'] from rfl]
      rw [show (['\\', 't'] : List Char) ++ (escList cs ++ '"' :: rest) =
        '\\' :: 't' :: (escList cs ++ '"' :: rest) from rfl]
      rw [parseStrBody_escaped 't' '\t' rfl (by decide), ih]
      rfl
    by_cases h5 : c = '\r'
    · subst h5
      rw [show escChar '\r' = ['\\', 'r'] from rfl]
      rw [show (['\\', 'r'] : List Char) ++ (escList cs ++ '"' :: rest) =
        '\\' :: 'r' :: (escList cs ++ '"' :: rest) from rfl]
      rw [parseStrBody_escaped 'r' '\r' rfl (by decide), ih]
      rfl
    by_cases h6 : c = Char.ofNat 8
    · subst h6
      rw [show escChar (Char.ofNat 8) = ['\\', 'b'] from rfl]
      rw [show (['\\', 'b'] : List Char) ++ (escList cs ++ '"' :: rest) =
        '\\' :: 'b' :: (escList cs ++ '"' :: rest) from rfl]
      rw [parseStrBody_escaped 'b' (Char.ofNat 8) rfl (by decide), ih]
      rfl
    by_cases h7 : c = Char.ofNat 12
    · subst h7
      rw [show escChar (Char.ofNat 12) = ['\\', 'f'] from rfl]
      rw [show (['\\', 'f'] : List Char) ++ (escList cs ++ '"' :: rest) =
        '\\' :: 'f' :: (escList cs ++ '"' :: rest) from rfl]
      rw [parseStrBody_escaped 'f' (Char.ofNat 12) rfl (by decide), ih]
      rfl
    by_cases h8 : c.toNat < 32
    · rw [show escChar c =
        ['\\', 'u', '0', '0', hexDigit (c.toNat / 16), hexDigit (c.toNat % 16)] from by
          simp [escChar, h1, h2, h3, h4, h5, h6, h7, h8]]
      rw [show (['\\', 'u', '0', '0', hexDigit (c.toNat / 16),
          hexDigit (c.toNat % 16)] : List Char) ++ (escList cs ++ '"' :: rest) =
        '\\' :: 'u' :: '0' :: '0' :: hexDigit (c.toNat / 16) ::
          hexDigit (c.toNat % 16) :: (escList cs ++ '"' :: rest) from rfl]
      rw [parseStrBody_unicode '0' '0' (hexDigit (c.toNat / 16))
        (hexDigit (c.toNat % 16)) 0 0 (c.toNat / 16) (c.toNat % 16) rfl rfl
        (unhex_hexDigit _ (by omega)) (unhex_hexDigit _ (by omega)), ih]
      have harith : ((0 * 16 + 0) * 16 + c.toNat / 16) * 16 + c.toNat % 16 =
          c.toNat := by omega
      have h9 : c.toNat / 16 * 16 + c.toNat % 16 = c.toNat := by omega
      simp [harith]
      rw [h9, Char.ofNat_toNat]
    · rw [show escChar c = [c] from by
        simp [escChar, h1, h2, h3, h4, h5, h6, h7, h8]]
      rw [show ([c] : List Char) ++ (escList cs ++ '"' :: rest) =
        c :: (escList cs ++ '"' :: rest) from rfl]
      rw [parseStrBody_other c h1 h2, ih]
      rfl

/-- `parseVal` skips a leading space. -/
theorem parseVal_space (f : Nat) (l : List Char) :
    parseVal (f + 1) (' ' :: l) = parseVal (f + 1) l := by
  simp only [parseVal]
  rw [show skipWs (' ' :: l) = skipWs l from by simp [skipWs, isWsChar]]

/-- `parseVal` inverts the string-literal encoder. -/
theorem parseVal_str (f : Nat) (cs rest : List Char) :
    parseVal (f + 1) ('"' :: (escList cs ++ '"' :: rest)) =
      some (.str (String.mk cs), rest) := by
  simp only [parseVal]
  rw [skipWs_cons_nws _ _ (by decide)]
  simp [parseStrBody_esc]

/-- `parseArrRest` inverts the tail of the `", "`-joined string-array
encoder, given enough fuel. -/
theorem parseArrRest_encRest (more : List (List Char)) :
    ∀ f rest, more.length + 1 ≤ f →
      parseArrRest f (encListRest more ++ ']' :: rest) =
        some (more.map (fun cs => JVal.str (String.mk cs)), rest) := by
  induction more with
  | nil =>
    intro f rest hf
    obtain ⟨f1, rfl⟩ : ∃ g, f = g + 1 := ⟨f - 1, by omega⟩
    rw [show encListRest [] ++ ']' :: rest = ']' :: rest from rfl]
    simp only [parseArrRest]
    rw [skipWs_cons_nws _ _ (by decide)]
    simp
  | cons x more ih =>
    intro f rest hf
    obtain ⟨f2, rfl⟩ : ∃ g, f = g + 1 + 1 := ⟨f - 2, by simp at hf; omega⟩
    rw [show encListRest (x :: more) ++ ']' :: rest =
      ',' :: ' ' :: ('"' :: (escList x ++ '"' ::
        (encListRest more ++ ']' :: rest))) from by simp [encListRest, encStrQ]]
    rw [parseArrRest.eq_2]
    rw [skipWs_cons_nws _ _ (by decide)]
    simp only [if_neg (by decide : ¬(',' : Char) = ']'), if_pos rfl]
    rw [parseVal_space, parseVal_str]
    simp only
    rw [ih (f2 + 1) rest (by simp at hf ⊢; omega)]
    simp

/-- Splitting a quoted string literal off a longer input. -/
theorem encStrQ_append (cs X : List Char) :
    encStrQ cs ++ X = '"' :: (escList cs ++ '"' :: X) := by
  simp [encStrQ]

/-- `skipWs` drops one leading space. -/
theorem skipWs_space (l : List Char) : skipWs (' ' :: l) = skipWs l := by
  simp [skipWs, isWsChar]

/-- A closing brace ends the member list. -/
theorem parseObjRest_close (f : Nat) (l : List Char) :
    parseObjRest (f + 1) ('}' :: l) = some ([], l) := by
  rw [parseObjRest.eq_2]
  rw [skipWs_cons_nws _ _ (by decide)]
  simp

/-- `parseArrBody` inverts the string-array encoder, given enough fuel. -/
theorem parseArrBody_enc (ls : List (List Char)) :
    ∀ f rest, ls.length + 2 ≤ f →
      parseArrBody f (encList ls ++ ']' :: rest) =
        some (.arr (ls.map (fun cs => JVal.str (String.mk cs))), rest) := by
  cases ls with
  | nil =>
    intro f rest hf
    obtain ⟨f1, rfl⟩ : ∃ g, f = g + 1 := ⟨f - 1, by omega⟩
    rw [show encList [] ++ ']' :: rest = ']' :: rest from rfl]
    rw [parseArrBody.eq_2]
    rw [skipWs_cons_nws _ _ (by decide)]
    simp
  | cons x more =>
    intro f rest hf
    obtain ⟨f2, rfl⟩ : ∃ g, f = g + 1 + 1 := ⟨f - 2, by simp at hf; omega⟩
    rw [show encList (x :: more) ++ ']' :: rest =
      '"' :: (escList x ++ '"' :: (encListRest more ++ ']' :: rest)) from by
        simp [encList, encStrQ]]
    rw [parseArrBody.eq_2]
    rw [skipWs_cons_nws _ _ (by decide)]
    simp only [if_neg (by decide : ¬('"' : Char) = ']')]
    rw [parseVal_str]
    simp only
    rw [parseArrRest_encRest more (f2 + 1) rest (by simp at hf ⊢; omega)]
    simp

/-- Parsing the `", \"links\": [...]"` member followed by the closing brace. -/
theorem parseObjRest_links (LS : List (List Char)) (f4 : Nat)
    (hf : LS.length + 2 ≤ f4) :
    parseObjRest (f4 + 2)
      (',' :: ' ' :: (encStrQ ['l', 'i', 'n', 'k', 's'] ++ ':' :: ' ' ::
        ('[' :: (encList LS ++ ']' :: '}' :: [])))) =
      some ([(String.mk ['l', 'i', 'n', 'k', 's'],
        .arr (LS.map (fun cs => JVal.str (String.mk cs))))], []) := by
  have hv : parseVal (f4 + 1) (' ' :: ('[' :: (encList LS ++ ']' :: '}' :: []))) =
      some (.arr (LS.map (fun cs => JVal.str (String.mk cs))), '}' :: []) := by
    rw [parseVal_space]
    rw [parseVal.eq_2]
    rw [skipWs_cons_nws _ _ (by decide)]
    simp only [if_neg (by decide : ¬('[' : Char) = '"'),
      if_neg (by decide : ¬('[' : Char) = '{'), if_pos rfl]
    exact parseArrBody_enc LS f4 ('}' :: []) hf
  rw [parseObjRest.eq_2]
  simp [skipWs, isWsChar, encStrQ_append, parseStrBody_esc, hv, parseObjRest_close]

/-- A space followed by an encoded string literal parses to the string. -/
theorem parseVal_space_str (f : Nat) (cs T : List Char) :
    parseVal (f + 1) (' ' :: ('"' :: (escList cs ++ '"' :: T))) =
      some (.str (String.mk cs), T) := by
  rw [parseVal_space]
  exact parseVal_str f cs T

/-- The parser inverts the event encoder, given enough fuel. -/
theorem parseVal_event (e : CrawlEvent) (f4 : Nat)
    (hf : e.links.length + 2 ≤ f4) :
    parseVal (f4 + 4) (eventChars e) = some (eventJVal e, []) := by
  have hlinks := parseObjRest_links (e.links.map String.data) f4 (by simpa using hf)
  simp only [encStrQ_append, List.cons_append, List.append_assoc] at hlinks
  rw [show eventChars e = '{' :: (encStrQ ['u', 'r', 'l'] ++ ':' :: ' ' ::
    (encStrQ e.url.data ++ ',' :: ' ' :: (encStrQ ['l', 'i', 'n', 'k', 's'] ++
      ':' :: ' ' :: ('[' :: (encList (e.links.map String.data) ++
        ']' :: '}' :: []))))) from rfl]
  rw [parseVal.eq_2]
  rw [skipWs_cons_nws _ _ (by decide)]
  simp [parseObjBody, encStrQ_append, parseStrBody_esc, skipWs, isWsChar,
    parseVal_space_str, hlinks, eventJVal, List.map_map]

/-- Each encoded tail element takes at least one character. -/
theorem encListRest_len (more : List (List Char)) :
    more.length ≤ (encListRest more).length := by
  induction more with
  | nil => simp [encListRest]
  | cons x more ih =>
    simp [encListRest, encStrQ]
    omega

/-- The encoded array is nearly as long as its element count. -/
theorem encList_len (ls : List (List Char)) :
    ls.length ≤ (encList ls).length + 1 := by
  cases ls with
  | nil => simp [encList]
  | cons x more =>
    have h := encListRest_len more
    simp [encList, encStrQ]
    omega

/-- The encoded event is longer than the number of links plus two. -/
theorem eventChars_len (e : CrawlEvent) :
    e.links.length + 2 ≤ (eventChars e).length := by
  have h := encList_len (e.links.map String.data)
  simp only [List.length_map] at h
  simp [eventChars, encStrQ]
  omega

/-- Decoding the encoded event recovers its JSON value. -/
theorem decode_encode_event (e : CrawlEvent) :
    decode (encode_event e) = some (eventJVal e) := by
  have hlen := eventChars_len e
  have hdata : (encode_event e).data = eventChars e := rfl
  unfold decode
  rw [hdata]
  obtain ⟨f4, hf4⟩ : ∃ g, 2 * (eventChars e).length + 2 = g + 4 :=
    ⟨2 * (eventChars e).length - 2, by omega⟩
  rw [hf4]
  rw [parseVal_event e f4 (by omega)]
  simp [skipWs]

/-- Reading back a list of JSON strings yields the original strings
(stated on the accumulator loop of `List.mapM`). -/
theorem mapM_asStr_loop (ls : List String) :
    ∀ acc : List String,
      List.mapM.loop asStr (ls.map JVal.str) acc = some (acc.reverse ++ ls) := by
  induction ls with
  | nil => intro acc; simp [List.mapM.loop]
  | cons x ls ih =>
    intro acc
    simp [List.mapM.loop, asStr, ih (x :: acc)]

/-- C9: the codec round-trips — decoding the encoding of any crawl event,
whatever unicode or reserved JSON characters its URL and link strings hold,
yields the event back unchanged. -/
theorem decode_encode_roundtrip (e : CrawlEvent) :
    decode_event (encode_event e) = some e := by
  simp only [decode_event, decode_encode_event e, eventJVal]
  simp
  exact ⟨e.links, by simpa using mapM_asStr_loop e.links [], rfl⟩
